import Mathlib

/-!
Shallow embedding of the Task-manager repository's core: validation
(src/lib/validation.ts), the auth routes (src/app/api/auth/login/route.ts,
src/app/api/auth/refresh/route.ts), and the task routes
(src/app/api/tasks/route.ts, which holds getTasks/createTask, toggleTask,
getTask/updateTask/deleteTask).

Modelling conventions:
* The relational store is a list of rows; `WHERE` clauses become
  `List.filter`, single-row `UPDATE ... WHERE` becomes `List.map` guarded by
  the same predicate, `DELETE ... WHERE` becomes `List.filter` of the
  negated predicate, `rows[0]` becomes `List.head?`.
* Row ids and user ids are `Nat`; timestamps are `Nat` (seconds); `NOW()` is
  an explicit `now` parameter; the 7-day refresh expiry is `now + 7 * 86400`.
* JavaScript `parseInt`, `Math.max`/`Math.min` with `NaN` propagation,
  string truthiness (`""` and `null`/`undefined` are falsy), `trim`,
  `toLowerCase` (ASCII range) and the email regex are modelled explicitly
  below.  `new Date(s)` parsing is abstracted as a `parseDate` parameter
  returning `Option Nat`; JWT verification and bcrypt comparison are
  abstracted as function parameters, since their bodies live in third-party
  libraries.
* SQL `ILIKE '%q%'` is modelled as a case-insensitive substring test on the
  trimmed search term (wildcard characters inside the term are not
  modelled; no claim depends on them).
-/

namespace TaskManager

/-- JavaScript `\s` for the characters relevant here (ASCII whitespace). -/
def jsIsSpace (c : Char) : Bool :=
  c = ' ' || c = '\t' || c = '\n' || c = '\r' || c = '\x0b' || c = '\x0c'

/-- JavaScript `String.prototype.toLowerCase`, ASCII range: code points
65–90 (`A`–`Z`) shift by 32, everything else is unchanged. -/
def jsToLowerChar (c : Char) : Char :=
  if 65 ≤ c.toNat && c.toNat ≤ 90 then Char.ofNat (c.toNat + 32) else c

/-- Lowercase a whole string (ASCII model of `toLowerCase`). -/
def jsToLower (s : String) : String :=
  ⟨s.data.map jsToLowerChar⟩

/-- JavaScript `String.prototype.trim`: strip leading and trailing whitespace. -/
def jsTrim (s : String) : String :=
  ⟨((s.data.dropWhile jsIsSpace).reverse.dropWhile jsIsSpace).reverse⟩

/-- Value of a run of decimal digits. -/
def digitsToNat (ds : List Char) : Nat :=
  ds.foldl (fun a c => a * 10 + (c.toNat - 48)) 0

/-- JavaScript `Number.parseInt(s, 10)`: skip whitespace, optional sign, then a
run of decimal digits; `none` models the `NaN` result when no digit follows. -/
def jsParseInt (s : String) : Option Int :=
  let cs := s.data.dropWhile jsIsSpace
  let signAndRest : Bool × List Char :=
    match cs with
    | '-' :: r => (true, r)
    | '+' :: r => (false, r)
    | r => (false, r)
  let ds := signAndRest.2.takeWhile Char.isDigit
  if ds.isEmpty then none
  else some (if signAndRest.1 then -(digitsToNat ds : Int) else (digitsToNat ds : Int))

/-- `searchParams.get(k) || dflt`: `null` (absent) and `""` are falsy. -/
def orDefault (p : Option String) (dflt : String) : String :=
  match p with
  | none => dflt
  | some s => if s == "" then dflt else s

/-- `Math.max a _` on a possibly-`NaN` value (`none` = `NaN`, which propagates). -/
def jsMaxInt (a : Int) (b : Option Int) : Option Int :=
  b.map (fun n => max a n)

/-- `Math.min a _` on a possibly-`NaN` value (`none` = `NaN`, which propagates). -/
def jsMinInt (a : Int) (b : Option Int) : Option Int :=
  b.map (fun n => min a n)

/-- A character matched by the regex class `[^\s@]`. -/
def okChar (c : Char) : Bool :=
  !jsIsSpace c && !(c == '@')

/-- The domain part after the `@` of the email regex: `[^\s@]+\.[^\s@]+$`.
Every character is in the class (so no second `@` and no whitespace) and
some `.` is neither the first nor the last character, which is exactly when
a split into two nonempty class chunks around a literal `.` exists. -/
def emailDomain (cs : List Char) : Bool :=
  cs.all okChar && ((cs.drop 1).dropLast.contains '.')

/-- The email regex after its first character: the rest of `[^\s@]+`, then
the literal `@`, then the domain. -/
def emailLocal : List Char → Bool
  | [] => false
  | c :: cs => if c == '@' then emailDomain cs else okChar c && emailLocal cs

/-- `EMAIL_REGEX = /^[^\s@]+@[^\s@]+\.[^\s@]+$/` from src/lib/validation.ts,
as a left-to-right scan: at least one class character, the `@`, then the
domain. -/
def isValidEmail (s : String) : Bool :=
  match s.data with
  | [] => false
  | c :: cs => okChar c && emailLocal cs

/-! ## Data model (src/lib/types.ts) -/

inductive TaskStatus where
  | pending
  | in_progress
  | completed
deriving DecidableEq, Repr

/-- The string stored in the `status` column for each `TaskStatus`. -/
def statusToString : TaskStatus → String
  | .pending => "pending"
  | .in_progress => "in_progress"
  | .completed => "completed"

inductive TaskPriority where
  | low
  | medium
  | high
deriving DecidableEq, Repr

def priorityToString : TaskPriority → String
  | .low => "low"
  | .medium => "medium"
  | .high => "high"

structure Task where
  id : Nat
  user_id : Nat
  title : String
  description : Option String
  status : TaskStatus
  priority : TaskPriority
  due_date : Option Nat
  created_at : Nat
  updated_at : Nat
deriving DecidableEq, Repr

structure User where
  id : Nat
  email : String
  password_hash : String
  name : String
  created_at : Nat
deriving DecidableEq, Repr

structure RefreshTokenRec where
  id : Nat
  user_id : Nat
  token : String
  expires_at : Nat
deriving DecidableEq, Repr

structure JWTPayload where
  userId : Nat
  email : String
deriving DecidableEq, Repr

structure AuthTokens where
  accessToken : String
  refreshToken : String
deriving DecidableEq, Repr

/-- A JSON field of a request body: missing key (`undefined`), explicit
`null`, or a string value.  Non-string JSON values other than `null` are not
modelled; no claim involves them. -/
inductive JField where
  | absent
  | null
  | val (s : String)
deriving DecidableEq, Repr

/-! ## Validation (src/lib/validation.ts) -/

structure ValidationError where
  field : String
  message : String
deriving DecidableEq, Repr

/-- Result of a validator: `valid`, the collected `errors`, and the
normalized `data` (present exactly when validation succeeded). -/
structure Validated (α : Type) where
  valid : Bool
  errors : List ValidationError
  data : Option α
deriving Repr

structure LoginBody where
  email : JField
  password : JField
deriving DecidableEq, Repr

structure LoginDTO where
  email : String
  password : String
deriving DecidableEq, Repr

structure RegisterBody where
  email : JField
  password : JField
  name : JField
deriving DecidableEq, Repr

structure RegisterDTO where
  email : String
  password : String
  name : String
deriving DecidableEq, Repr

/-- Errors produced for the `email` field by both `validateRegister` and
`validateLogin`: `!body.email || typeof body.email !== "string"` treats
`undefined`, `null` and `""` as missing, then the regex is tested on the
raw (un-normalized) string. -/
def emailErrors (e : JField) : List ValidationError :=
  match e with
  | .absent => [⟨"email", "Email is required"⟩]
  | .null => [⟨"email", "Email is required"⟩]
  | .val s =>
    if s == "" then [⟨"email", "Email is required"⟩]
    else if !isValidEmail s then [⟨"email", "Invalid email format"⟩]
    else []

/-- `validateLogin` from src/lib/validation.ts: email format is checked on the
raw string; the normalized data lowercases then trims the email. -/
def validateLogin (body : Option LoginBody) : Validated LoginDTO :=
  match body with
  | none => ⟨false, [⟨"body", "Request body is required"⟩], none⟩
  | some b =>
    let errs := emailErrors b.email ++
      (match b.password with
       | .absent => [⟨"password", "Password is required"⟩]
       | .null => [⟨"password", "Password is required"⟩]
       | .val s => if s == "" then [⟨"password", "Password is required"⟩] else [])
    if !errs.isEmpty then ⟨false, errs, none⟩
    else
      match b.email, b.password with
      | .val e, .val p => ⟨true, [], some ⟨jsTrim (jsToLower e), p⟩⟩
      | _, _ => ⟨false, [], none⟩

/-- `validateRegister` from src/lib/validation.ts. -/
def validateRegister (body : Option RegisterBody) : Validated RegisterDTO :=
  match body with
  | none => ⟨false, [⟨"body", "Request body is required"⟩], none⟩
  | some b =>
    let errs := emailErrors b.email ++
      (match b.password with
       | .absent => [⟨"password", "Password is required"⟩]
       | .null => [⟨"password", "Password is required"⟩]
       | .val s =>
         if s == "" then [⟨"password", "Password is required"⟩]
         else if s.length < 8 then [⟨"password", "Password must be at least 8 characters"⟩]
         else []) ++
      (match b.name with
       | .absent => [⟨"name", "Name is required"⟩]
       | .null => [⟨"name", "Name is required"⟩]
       | .val s =>
         if s == "" then [⟨"name", "Name is required"⟩]
         else if (jsTrim s).length < 2 then [⟨"name", "Name must be at least 2 characters"⟩]
         else [])
    if !errs.isEmpty then ⟨false, errs, none⟩
    else
      match b.email, b.password, b.name with
      | .val e, .val p, .val n => ⟨true, [], some ⟨jsTrim (jsToLower e), p, jsTrim n⟩⟩
      | _, _, _ => ⟨false, [], none⟩

structure UpdateBody where
  title : JField
  description : JField
  status : JField
  priority : JField
  due_date : JField
deriving DecidableEq, Repr

/-- Normalized PATCH payload (`UpdateTaskDTO`).  `description` is `some`
only for a present string (a present `null` was mapped to `undefined` by the
validator); `due_date` keeps the three-way distinction because a present
`null` clears the stored date. -/
structure UpdateTaskDTO where
  title : Option String
  description : Option String
  status : Option TaskStatus
  priority : Option TaskPriority
  due_date : JField
deriving DecidableEq, Repr

def statusOfString (s : String) : Option TaskStatus :=
  if s == "pending" then some .pending
  else if s == "in_progress" then some .in_progress
  else if s == "completed" then some .completed
  else none

def priorityOfString (s : String) : Option TaskPriority :=
  if s == "low" then some .low
  else if s == "medium" then some .medium
  else if s == "high" then some .high
  else none

/-- `validateUpdateTask` from src/lib/validation.ts.  `parseDate` stands for
`new Date(s)`; `none` models an `Invalid Date` (`NaN` time value). -/
def validateUpdateTask (parseDate : String → Option Nat) (body : Option UpdateBody) :
    Validated UpdateTaskDTO :=
  match body with
  | none => ⟨false, [⟨"body", "Request body is required"⟩], none⟩
  | some b =>
    let hasAnyField : Bool :=
      b.title ≠ .absent || b.description ≠ .absent || b.status ≠ .absent ||
        b.priority ≠ .absent || b.due_date ≠ .absent
    let errs :=
      (if !hasAnyField then [⟨"body", "At least one field must be provided"⟩] else []) ++
      (match b.title with
       | .absent => []
       | .null => [⟨"title", "Title must be a string"⟩]
       | .val t =>
         if (jsTrim t).length < 1 then [⟨"title", "Title cannot be empty"⟩]
         else if (jsTrim t).length > 255 then
           [⟨"title", "Title must be less than 255 characters"⟩]
         else []) ++
      (match b.description with
       | .absent => []
       | .null => []
       | .val _ => []) ++
      (match b.status with
       | .absent => []
       | .null => [⟨"status", "Status must be pending, in_progress, or completed"⟩]
       | .val s =>
         if (statusOfString s).isNone then
           [⟨"status", "Status must be pending, in_progress, or completed"⟩]
         else []) ++
      (match b.priority with
       | .absent => []
       | .null => [⟨"priority", "Priority must be low, medium, or high"⟩]
       | .val s =>
         if (priorityOfString s).isNone then
           [⟨"priority", "Priority must be low, medium, or high"⟩]
         else []) ++
      (match b.due_date with
       | .absent => []
       | .null => []
       | .val s => if (parseDate s).isNone then [⟨"due_date", "Invalid date format"⟩] else [])
    if !errs.isEmpty then ⟨false, errs, none⟩
    else
      ⟨true, [],
        some
          { title := match b.title with
              | .val t => some (jsTrim t)
              | _ => none
            description := match b.description with
              | .val s => some (jsTrim s)
              | _ => none
            status := match b.status with
              | .val s => statusOfString s
              | _ => none
            priority := match b.priority with
              | .val s => priorityOfString s
              | _ => none
            due_date := b.due_date }⟩

/-! ## Auth routes (src/app/api/auth/login/route.ts, .../refresh/route.ts,
src/unnamed/part_001 register) -/

structure UserPublic where
  id : Nat
  email : String
  name : String
  created_at : Nat
deriving DecidableEq, Repr

def User.toPublic (u : User) : UserPublic :=
  ⟨u.id, u.email, u.name, u.created_at⟩

/-- Expiry used when persisting a refresh token: `getRefreshTokenExpiry` adds
7 days to the current date (src/lib/auth.ts). -/
def refreshExpiry (now : Nat) : Nat := now + 7 * 86400

structure LoginResult where
  status : Nat
  error : Option String
  data : Option (UserPublic × AuthTokens)
  refresh_tokens : List RefreshTokenRec
deriving DecidableEq, Repr

/-- POST /auth/login.  `verify` stands for `verifyPassword` (bcrypt compare);
`fresh`/`freshId` are the tokens minted by `generateTokens` and the id the
store assigns to the inserted refresh-token row. -/
def loginPOST (verify : String → String → Bool) (users : List User)
    (rts : List RefreshTokenRec) (now : Nat) (fresh : AuthTokens) (freshId : Nat)
    (body : Option LoginBody) : LoginResult :=
  let v := validateLogin body
  match v.data, v.valid with
  | some d, true =>
    match users.filter (fun u => u.email == d.email) with
    | [] => ⟨401, some "Invalid email or password", none, rts⟩
    | u :: _ =>
      if verify d.password u.password_hash then
        ⟨200, none, some (u.toPublic, fresh),
          rts ++ [⟨freshId, u.id, fresh.refreshToken, refreshExpiry now⟩]⟩
      else ⟨401, some "Invalid email or password", none, rts⟩
  | _, _ => ⟨400, some ((v.errors.head?.map (·.message)).getD "Validation failed"), none, rts⟩

structure RegisterResult where
  status : Nat
  error : Option String
  data : Option (UserPublic × AuthTokens)
  users : List User
  refresh_tokens : List RefreshTokenRec
deriving DecidableEq, Repr

/-- POST /auth/register (src/unnamed/part_001).  `hashPw` stands for
`hashPassword`; `freshUserId` is the id the store assigns to the new user. -/
def registerPOST (hashPw : String → String) (users : List User)
    (rts : List RefreshTokenRec) (now : Nat) (fresh : AuthTokens)
    (freshUserId freshId : Nat) (body : Option RegisterBody) : RegisterResult :=
  let v := validateRegister body
  match v.data, v.valid with
  | some d, true =>
    match users.filter (fun u => u.email == d.email) with
    | _ :: _ => ⟨409, some "Email already registered", none, users, rts⟩
    | [] =>
      let newUser : User := ⟨freshUserId, d.email, hashPw d.password, d.name, now⟩
      ⟨201, none, some (newUser.toPublic, fresh), users ++ [newUser],
        rts ++ [⟨freshId, newUser.id, fresh.refreshToken, refreshExpiry now⟩]⟩
  | _, _ =>
    ⟨400, some ((v.errors.head?.map (·.message)).getD "Validation failed"), none, users, rts⟩

structure RefreshResult where
  status : Nat
  error : Option String
  tokens : Option AuthTokens
  refresh_tokens : List RefreshTokenRec
deriving DecidableEq, Repr

/-- POST /auth/refresh (src/app/api/auth/refresh/route.ts).  `verifyJWT`
stands for `verifyRefreshToken` (signature and JWT-expiry check); `fresh` and
`freshId` are the newly minted tokens and the id of the inserted row.  The
body's `refreshToken` field is `none` when missing or not a string. -/
def refreshPOST (verifyJWT : String → Option JWTPayload) (users : List User)
    (rts : List RefreshTokenRec) (now : Nat) (fresh : AuthTokens) (freshId : Nat)
    (body : Option String) : RefreshResult :=
  match body with
  | none => ⟨400, some "Refresh token is required", none, rts⟩
  | some rt =>
    match verifyJWT rt with
    | none => ⟨401, some "Invalid refresh token", none, rts⟩
    | some _ =>
      match rts.filter (fun r => r.token == rt && decide (now < r.expires_at)) with
      | [] => ⟨401, some "Refresh token expired or revoked", none, rts⟩
      | stored :: _ =>
        match users.filter (fun u => u.id == stored.user_id) with
        | [] => ⟨401, some "User not found", none, rts⟩
        | u :: _ =>
          let afterDelete := rts.filter (fun r => !(r.id == stored.id))
          ⟨200, none, some fresh,
            afterDelete ++ [⟨freshId, u.id, fresh.refreshToken, refreshExpiry now⟩]⟩

/-! ## Task routes (src/app/api/tasks/route.ts) -/

/-- The row predicate `id = taskId AND user_id = userId` shared by every
single-task query. -/
def ownMatch (tid uid : Nat) (t : Task) : Bool :=
  t.id == tid && t.user_id == uid

structure TaskResult where
  status : Nat
  error : Option String
  task : Option Task
  db : List Task
deriving DecidableEq, Repr

/-- GET /tasks/:id. -/
def getTaskRoute (db : List Task) (uid : Nat) (tid? : Option Nat) : TaskResult :=
  match tid? with
  | none => ⟨400, some "Task ID is required", none, db⟩
  | some tid =>
    match db.filter (ownMatch tid uid) with
    | [] => ⟨404, some "Task not found", none, db⟩
    | t :: _ => ⟨200, none, some t, db⟩

/-- DELETE /tasks/:id: the `DELETE ... RETURNING id` both removes the
matching rows and reports whether any row matched. -/
def deleteTaskRoute (db : List Task) (uid : Nat) (tid? : Option Nat) : TaskResult :=
  match tid? with
  | none => ⟨400, some "Task ID is required", none, db⟩
  | some tid =>
    let deleted := db.filter (ownMatch tid uid)
    let db' := db.filter (fun t => !ownMatch tid uid t)
    if deleted.isEmpty then ⟨404, some "Task not found", none, db'⟩
    else ⟨200, none, none, db'⟩

/-- `currentStatus === "completed" ? "pending" : "completed"`. -/
def toggleStatus (s : TaskStatus) : TaskStatus :=
  if s = .completed then .pending else .completed

/-- PATCH /tasks/:id/toggle. -/
def toggleTaskRoute (db : List Task) (uid : Nat) (tid? : Option Nat) (now : Nat) :
    TaskResult :=
  match tid? with
  | none => ⟨400, some "Task ID is required", none, db⟩
  | some tid =>
    match db.filter (ownMatch tid uid) with
    | [] => ⟨404, some "Task not found", none, db⟩
    | t0 :: _ =>
      let newStatus := toggleStatus t0.status
      let db' := db.map (fun t =>
        if ownMatch tid uid t then { t with status := newStatus, updated_at := now } else t)
      ⟨200, none, (db'.filter (ownMatch tid uid)).head?, db'⟩

/-- The field-wise merge of updateTask (src/app/api/tasks/route.ts): each
`new*` value is the request field when present, the stored field otherwise;
`updates.description || null` turns an empty string into SQL NULL, and a
present `due_date` is either cleared (`null` or the falsy `""`) or parsed. -/
def mergeRow (parseDate : String → Option Nat) (dto : UpdateTaskDTO) (e : Task)
    (now : Nat) : Task :=
  { e with
    title := dto.title.getD e.title
    description :=
      match dto.description with
      | some d => if d == "" then none else some d
      | none => e.description
    status := dto.status.getD e.status
    priority := dto.priority.getD e.priority
    due_date :=
      match dto.due_date with
      | .absent => e.due_date
      | .null => none
      | .val s => if s == "" then none else parseDate s
    updated_at := now }

/-- PATCH /tasks/:id: validate, confirm ownership, then write the field-wise
merge of the request over the stored row (`UPDATE ... SET all columns`).
A row matched by the `WHERE` shares `id` and `user_id` with the filter head
`e`, and `id` is the table's primary key, so replacing a matched row with
`mergeRow parseDate dto e now` is the row-wise `SET`. -/
def updateTaskRoute (parseDate : String → Option Nat) (db : List Task) (uid : Nat)
    (tid? : Option Nat) (body : Option UpdateBody) (now : Nat) : TaskResult :=
  match tid? with
  | none => ⟨400, some "Task ID is required", none, db⟩
  | some tid =>
    let v := validateUpdateTask parseDate body
    match v.data, v.valid with
    | some dto, true =>
      match db.filter (ownMatch tid uid) with
      | [] => ⟨404, some "Task not found", none, db⟩
      | e :: _ =>
        let db' := db.map (fun t =>
          if ownMatch tid uid t then mergeRow parseDate dto e now else t)
        ⟨200, none, (db'.filter (ownMatch tid uid)).head?, db'⟩
    | _, _ =>
      ⟨400, some ((v.errors.head?.map (·.message)).getD "Validation failed"), none, db⟩

/-! ## GET /tasks: pagination, filtering, search (src/app/api/tasks/route.ts) -/

/-- `Math.max(1, Number.parseInt(searchParams.get("page") || "1", 10))`.
`none` models `NaN` (a query value whose first significant character is not a
digit), which `Math.max` propagates. -/
def effectivePage (pageP : Option String) : Option Int :=
  jsMaxInt 1 (jsParseInt (orDefault pageP "1"))

/-- `Math.min(100, Math.max(1, Number.parseInt(searchParams.get("limit") || "10", 10)))`. -/
def effectiveLimit (limitP : Option String) : Option Int :=
  jsMinInt 100 (jsMaxInt 1 (jsParseInt (orDefault limitP "10")))

/-- `needle` occurs as a contiguous subsequence of `hay`. -/
def containsSeq (needle : List Char) : List Char → Bool
  | [] => needle.isEmpty
  | c :: rest => needle.isPrefixOf (c :: rest) || containsSeq needle rest

/-- `ILIKE '%q%'` on the title: case-insensitive substring containment of the
trimmed search term. -/
def titleILike (title search : String) : Bool :=
  containsSeq (jsToLower (jsTrim search)).data (jsToLower title).data

/-- Insert a task into a list sorted by `created_at` descending. -/
def insertByCreatedDesc (t : Task) : List Task → List Task
  | [] => [t]
  | a :: l =>
    if a.created_at ≤ t.created_at then t :: a :: l else a :: insertByCreatedDesc t l

/-- `ORDER BY created_at DESC` (insertion sort; ties keep an arbitrary but
deterministic order, as the source has no secondary sort key). -/
def orderByCreatedDesc (db : List Task) : List Task :=
  db.foldr insertByCreatedDesc []

/-- The filter predicate that §4.5 calls "the same filter predicate": user
scoping AND'ed with the optional exact status match and the optional
case-insensitive title search. -/
def listMatches (uid : Nat) (statusF searchF : Option String) (t : Task) : Bool :=
  t.user_id == uid &&
    (match statusF with
     | some s => statusToString t.status == s
     | none => true) &&
    (match searchF with
     | some q => titleILike t.title q
     | none => true)

/-- The `SELECT COUNT(*)` of getTasks: one of four queries depending on which
filters are present, mirroring the code's four-way branch. -/
def countTasks (db : List Task) (uid : Nat) (statusF searchF : Option String) : Nat :=
  match statusF, searchF with
  | some s, some q =>
    (db.filter (fun t => t.user_id == uid && statusToString t.status == s &&
      titleILike t.title q)).length
  | some s, none =>
    (db.filter (fun t => t.user_id == uid && statusToString t.status == s)).length
  | none, some q =>
    (db.filter (fun t => t.user_id == uid && titleILike t.title q)).length
  | none, none => (db.filter (fun t => t.user_id == uid)).length

/-- The paginated `SELECT` of getTasks: the same four-way branch, each with
`ORDER BY created_at DESC LIMIT limit OFFSET offset`. -/
def selectTasks (db : List Task) (uid : Nat) (statusF searchF : Option String)
    (offset limit : Nat) : List Task :=
  match statusF, searchF with
  | some s, some q =>
    (((orderByCreatedDesc (db.filter (fun t => t.user_id == uid &&
      statusToString t.status == s && titleILike t.title q)))).drop offset).take limit
  | some s, none =>
    (((orderByCreatedDesc (db.filter (fun t => t.user_id == uid &&
      statusToString t.status == s)))).drop offset).take limit
  | none, some q =>
    (((orderByCreatedDesc (db.filter (fun t => t.user_id == uid &&
      titleILike t.title q)))).drop offset).take limit
  | none, none =>
    (((orderByCreatedDesc (db.filter (fun t => t.user_id == uid)))).drop offset).take limit

structure ListResult where
  status : Nat
  data : List Task
  page : Int
  limit : Int
  total : Nat
  totalPages : Nat
deriving DecidableEq, Repr

/-- GET /tasks.  Query parameters arrive as `Option String` (`none` =
absent).  A `NaN` page or limit reaches the store as an invalid `LIMIT`/
`OFFSET` argument, so the handler's catch returns the 500 fallback response
`{data: [], pagination: {page: 1, limit: 10, total: 0, totalPages: 0}}`.
`status`/`search` are used only when truthy (`""` behaves like absent).
`Math.ceil(total / limit)` for `limit ≥ 1` is `(total + limit - 1) / limit`
in natural division. -/
def getTasksRoute (db : List Task) (uid : Nat)
    (pageP limitP statusP searchP : Option String) : ListResult :=
  match effectivePage pageP, effectiveLimit limitP with
  | some page, some limit =>
    let statusF : Option String :=
      match statusP with
      | some s => if s == "" then none else some s
      | none => none
    let searchF : Option String :=
      match searchP with
      | some q => if q == "" then none else some q
      | none => none
    let offset : Nat := ((page - 1) * limit).toNat
    let total := countTasks db uid statusF searchF
    ⟨200, selectTasks db uid statusF searchF offset limit.toNat, page, limit, total,
      (total + limit.toNat - 1) / limit.toNat⟩
  | _, _ => ⟨500, [], 1, 10, 0, 0⟩

/-! ## Concrete fixtures used to instantiate the theorems -/

def sampleTask : Task :=
  ⟨1, 7, "Buy milk", some "keep", .pending, .medium, none, 100, 100⟩

def sampleUser : User := ⟨7, "alice@example.com", "hashedpw", "Alice", 0⟩

/-- The PATCH body `{description: null}`. -/
def nullDescBody : UpdateBody := ⟨.absent, .null, .absent, .absent, .absent⟩

/-- The PATCH body `{}` (zero recognized fields). -/
def emptyUpdateBody : UpdateBody := ⟨.absent, .absent, .absent, .absent, .absent⟩

/-- A `new Date` model that accepts nothing (no claim below parses a date). -/
def noParseDate : String → Option Nat := fun _ => none

/-- The PATCH body `{title: " New title "}`. -/
def titleBody : UpdateBody := ⟨.val " New title ", .absent, .absent, .absent, .absent⟩

/-- Login body for an email no user registered. -/
def unknownEmailBody : Option LoginBody := some ⟨.val "bob@example.com", .val "pw"⟩

/-- Login body with `sampleUser`'s email and a wrong password. -/
def wrongPwBody : Option LoginBody := some ⟨.val "alice@example.com", .val "bad"⟩

/-- Login body whose email differs from `sampleUser`'s only by a leading space. -/
def wsLoginBody : Option LoginBody := some ⟨.val " alice@example.com", .val "pw123"⟩

/-- Login body with `sampleUser`'s exact email. -/
def okLoginBody : Option LoginBody := some ⟨.val "alice@example.com", .val "pw123"⟩

/-- A stored refresh-token record of user 7 expiring at time 1000. -/
def rtRec : RefreshTokenRec := ⟨5, 7, "tok", 1000⟩

/-- A JWT verifier that accepts everything as user 7 (the signature layer is
not what C1 exercises). -/
def vJWT : String → Option JWTPayload := fun _ => some ⟨7, "alice@example.com"⟩

def scenTask (i : Nat) : Task := ⟨i, 7, "Task", none, .pending, .medium, none, i, i⟩

/-- 25 tasks of user 7, for the §8 pagination scenario. -/
def scenDb : List Task := (List.range 25).map scenTask

/-! ## Helper lemmas -/

/-- The `tasks.id` column is a primary key: distinct rows have distinct ids. -/
def UniqueIds (db : List Task) : Prop :=
  db.Pairwise (fun a b => a.id ≠ b.id)

theorem mem_id_eq {db : List Task} (hu : UniqueIds db) {x t : Task}
    (hx : x ∈ db) (ht : t ∈ db) (h : x.id = t.id) : x = t := by
  induction db with
  | nil => cases hx
  | cons a l ih =>
    rw [UniqueIds, List.pairwise_cons] at hu
    rcases List.mem_cons.mp hx with rfl | hx' <;> rcases List.mem_cons.mp ht with rfl | ht'
    · rfl
    · exact absurd h (hu.1 t ht')
    · exact absurd h.symm (hu.1 x hx')
    · exact ih hu.2 hx' ht'

theorem ownMatch_eq_true {tid uid : Nat} {t : Task} :
    ownMatch tid uid t = true ↔ t.id = tid ∧ t.user_id = uid := by
  simp [ownMatch]

theorem filter_ownMatch_single {db : List Task} (hu : UniqueIds db) {t : Task}
    (ht : t ∈ db) (h2 : t.user_id = uid) :
    db.filter (ownMatch t.id uid) = [t] := by
  induction db with
  | nil => cases ht
  | cons a l ih =>
    rw [UniqueIds, List.pairwise_cons] at hu
    rcases List.mem_cons.mp ht with rfl | ht'
    · have hnil : l.filter (ownMatch t.id uid) = [] := by
        rw [List.filter_eq_nil_iff]
        intro x hx hpx
        exact hu.1 x hx (ownMatch_eq_true.mp hpx).1.symm
      rw [List.filter_cons_of_pos (ownMatch_eq_true.mpr ⟨rfl, h2⟩), hnil]
    · have hna : ¬(ownMatch t.id uid a = true) := by
        intro hpa
        exact hu.1 t ht' (ownMatch_eq_true.mp hpa).1
      rw [List.filter_cons_of_neg (by simpa using hna)]
      exact ih hu.2 ht'

theorem filter_ownMatch_nil_cross {db : List Task} (hu : UniqueIds db) {t : Task}
    (ht : t ∈ db) {A : Nat} (hA : A ≠ t.user_id) :
    db.filter (ownMatch t.id A) = [] := by
  rw [List.filter_eq_nil_iff]
  intro x hx hpx
  obtain ⟨h1, h2⟩ := ownMatch_eq_true.mp hpx
  exact hA ((mem_id_eq hu hx ht h1 ▸ h2).symm)

theorem filter_ownMatch_nil_fresh {db : List Task} {tid : Nat}
    (h : ∀ x ∈ db, x.id ≠ tid) (uid : Nat) :
    db.filter (ownMatch tid uid) = [] := by
  rw [List.filter_eq_nil_iff]
  intro x hx hpx
  exact h x hx (ownMatch_eq_true.mp hpx).1

theorem filter_not_ownMatch_self {db : List Task} {tid uid : Nat}
    (h : db.filter (ownMatch tid uid) = []) :
    db.filter (fun t => !ownMatch tid uid t) = db := by
  rw [List.filter_eq_self]
  intro a ha
  rw [List.filter_eq_nil_iff] at h
  simpa using h a ha

theorem filter_map_ownMatch (db : List Task) (tid uid : Nat) (f : Task → Task)
    (hf : ∀ x, ownMatch tid uid (f x) = ownMatch tid uid x) :
    (db.map f).filter (ownMatch tid uid) = (db.filter (ownMatch tid uid)).map f := by
  rw [List.filter_map]
  exact congrArg _ (List.filter_congr (fun x _ => hf x))

theorem uniqueIds_map {db : List Task} (hu : UniqueIds db) {f : Task → Task}
    (hf : ∀ x, (f x).id = x.id) : UniqueIds (db.map f) := by
  rw [UniqueIds, List.pairwise_map]
  exact hu.imp (fun h => by rw [hf, hf]; exact h)

theorem valid_data_if {α : Type} (c : Bool) (e : List ValidationError) (d : α)
    (h : (if c then (⟨false, e, none⟩ : Validated α) else ⟨true, [], some d⟩).valid = true) :
    (if c then (⟨false, e, none⟩ : Validated α) else ⟨true, [], some d⟩).data = some d := by
  cases c <;> simp_all

theorem validateUpdateTask_data_of_valid (pd : String → Option Nat)
    (b : Option UpdateBody) (h : (validateUpdateTask pd b).valid = true) :
    ∃ dto, (validateUpdateTask pd b).data = some dto := by
  cases b with
  | none => simp [validateUpdateTask] at h
  | some bb =>
    rw [validateUpdateTask] at h ⊢
    exact ⟨_, valid_data_if _ _ _ h⟩

/-- Behavior of the toggle route on an owned task under the primary-key
invariant: 200, the returned row is the stored row with flipped status and a
fresh `updated_at`, and the store is the pointwise update. -/
theorem toggleTaskRoute_owned {db : List Task} (hu : UniqueIds db) {t : Task}
    (ht : t ∈ db) (now : Nat) {tid uid : Nat} (hid : t.id = tid)
    (huid : t.user_id = uid) :
    toggleTaskRoute db uid (some tid) now =
      ⟨200, none, some { t with status := toggleStatus t.status, updated_at := now },
        db.map (fun x => if ownMatch tid uid x then
          { x with status := toggleStatus t.status, updated_at := now } else x)⟩ := by
  subst hid
  subst huid
  have hf := filter_ownMatch_single hu ht rfl
  have hpres : ∀ x, ownMatch t.id t.user_id
      (if ownMatch t.id t.user_id x then
        { x with status := toggleStatus t.status, updated_at := now } else x) =
      ownMatch t.id t.user_id x := by
    intro x
    by_cases hx : ownMatch t.id t.user_id x = true
    · rw [if_pos hx]
      rfl
    · rw [if_neg hx]
  simp only [toggleTaskRoute, hf]
  rw [filter_map_ownMatch db t.id t.user_id _ hpres, hf]
  simp [ownMatch]

/-- Behavior of the update route on an owned task with a valid body under
the primary-key invariant. -/
theorem updateTaskRoute_owned (pd : String → Option Nat) {db : List Task}
    (hu : UniqueIds db) {t : Task} (ht : t ∈ db) (body : Option UpdateBody)
    {dto : UpdateTaskDTO} (hv : (validateUpdateTask pd body).data = some dto)
    (hvalid : (validateUpdateTask pd body).valid = true) (now : Nat)
    {tid uid : Nat} (hid : t.id = tid) (huid : t.user_id = uid) :
    updateTaskRoute pd db uid (some tid) body now =
      ⟨200, none, some (mergeRow pd dto t now),
        db.map (fun x => if ownMatch tid uid x then mergeRow pd dto t now else x)⟩ := by
  subst hid
  subst huid
  have hf := filter_ownMatch_single hu ht rfl
  have hpres : ∀ x, ownMatch t.id t.user_id
      (if ownMatch t.id t.user_id x then mergeRow pd dto t now else x) =
      ownMatch t.id t.user_id x := by
    intro x
    by_cases hx : ownMatch t.id t.user_id x = true
    · rw [if_pos hx, hx]
      simp [ownMatch, mergeRow]
    · rw [if_neg hx]
  simp only [updateTaskRoute, hv, hvalid, hf]
  rw [filter_map_ownMatch db t.id t.user_id _ hpres, hf]
  simp [ownMatch]

/-! ## Character-level facts about the lowercasing model -/

theorem char_eq_iff_toNat {c d : Char} : c = d ↔ c.toNat = d.toNat :=
  ⟨fun h => h ▸ rfl, fun h => Char.eq_of_val_eq (UInt32.toNat.inj h)⟩

theorem toNat_ofNat_of_lt {n : Nat} (h : n < 55296) : (Char.ofNat n).toNat = n := by
  have hv : n.isValidChar := Or.inl h
  simp [Char.ofNat, Char.toNat, hv, Char.ofNatAux, UInt32.toNat]

theorem jsToLowerChar_of_upper {c : Char} (h : 65 ≤ c.toNat ∧ c.toNat ≤ 90) :
    (jsToLowerChar c).toNat = c.toNat + 32 := by
  rw [jsToLowerChar,
    if_pos (by simp only [Bool.and_eq_true, decide_eq_true_eq]; exact h)]
  exact toNat_ofNat_of_lt (by omega)

theorem jsToLowerChar_of_not_upper {c : Char} (h : ¬(65 ≤ c.toNat ∧ c.toNat ≤ 90)) :
    jsToLowerChar c = c := by
  rw [jsToLowerChar,
    if_neg (by simp only [Bool.and_eq_true, decide_eq_true_eq]; exact h)]

theorem jsToLowerChar_eq_iff_lt {c d : Char} (hd : d.toNat < 65) :
    jsToLowerChar c = d ↔ c = d := by
  by_cases h : 65 ≤ c.toNat ∧ c.toNat ≤ 90
  · rw [char_eq_iff_toNat, char_eq_iff_toNat (c := c), jsToLowerChar_of_upper h]
    omega
  · rw [jsToLowerChar_of_not_upper h]

theorem jsToLowerChar_idem (c : Char) :
    jsToLowerChar (jsToLowerChar c) = jsToLowerChar c := by
  by_cases h : 65 ≤ c.toNat ∧ c.toNat ≤ 90
  · exact jsToLowerChar_of_not_upper (by rw [jsToLowerChar_of_upper h]; omega)
  · rw [jsToLowerChar_of_not_upper h]
    exact jsToLowerChar_of_not_upper h

theorem jsIsSpace_lower (c : Char) : jsIsSpace (jsToLowerChar c) = jsIsSpace c := by
  simp only [jsIsSpace,
    jsToLowerChar_eq_iff_lt (show (' ' : Char).toNat < 65 by decide),
    jsToLowerChar_eq_iff_lt (show ('\t' : Char).toNat < 65 by decide),
    jsToLowerChar_eq_iff_lt (show ('\n' : Char).toNat < 65 by decide),
    jsToLowerChar_eq_iff_lt (show ('\r' : Char).toNat < 65 by decide),
    jsToLowerChar_eq_iff_lt (show ('\x0b' : Char).toNat < 65 by decide),
    jsToLowerChar_eq_iff_lt (show ('\x0c' : Char).toNat < 65 by decide)]

theorem beq_at_lower (c : Char) : (jsToLowerChar c == '@') = (c == '@') := by
  rw [Bool.eq_iff_iff]
  simp only [beq_iff_eq]
  exact jsToLowerChar_eq_iff_lt (by decide)

theorem beq_dot_lower (c : Char) : ('.' == jsToLowerChar c) = ('.' == c) := by
  rw [Bool.eq_iff_iff]
  simp only [beq_iff_eq, eq_comm (a := ('.' : Char))]
  exact jsToLowerChar_eq_iff_lt (by decide)

theorem okChar_lower (c : Char) : okChar (jsToLowerChar c) = okChar c := by
  rw [okChar, okChar, jsIsSpace_lower, beq_at_lower]

theorem contains_dot_lower (l : List Char) :
    ((l.map jsToLowerChar).contains '.') = l.contains '.' := by
  induction l with
  | nil => rfl
  | cons a l ih =>
    show ('.' == jsToLowerChar a || (l.map jsToLowerChar).contains '.') = _
    rw [beq_dot_lower, ih]
    rfl

theorem all_okChar_lower (l : List Char) :
    (l.map jsToLowerChar).all okChar = l.all okChar := by
  induction l with
  | nil => rfl
  | cons a l ih => simp only [List.map_cons, List.all_cons, okChar_lower, ih]

theorem emailDomain_lower (cs : List Char) :
    emailDomain (cs.map jsToLowerChar) = emailDomain cs := by
  rw [emailDomain, emailDomain, all_okChar_lower, ← List.map_drop, ← List.map_dropLast,
    contains_dot_lower]

theorem emailLocal_lower (cs : List Char) :
    emailLocal (cs.map jsToLowerChar) = emailLocal cs := by
  induction cs with
  | nil => rfl
  | cons a l ih =>
    show (if jsToLowerChar a == '@' then emailDomain (l.map jsToLowerChar)
      else okChar (jsToLowerChar a) && emailLocal (l.map jsToLowerChar)) = _
    rw [beq_at_lower, emailDomain_lower, okChar_lower, ih]
    rfl

theorem isValidEmail_lower (s : String) :
    isValidEmail (jsToLower s) = isValidEmail s := by
  have hdata : (jsToLower s).data = s.data.map jsToLowerChar := rfl
  rw [isValidEmail, isValidEmail, hdata]
  cases s.data with
  | nil => rfl
  | cons a l =>
    show (okChar (jsToLowerChar a) && emailLocal (l.map jsToLowerChar)) =
      (okChar a && emailLocal l)
    rw [okChar_lower, emailLocal_lower]

theorem not_space_of_okChar {c : Char} (h : okChar c = true) : jsIsSpace c = false := by
  rw [okChar, Bool.and_eq_true, Bool.not_eq_true'] at h
  exact h.1

theorem not_space_of_emailDomain {cs : List Char} (h : emailDomain cs = true) :
    ∀ c ∈ cs, jsIsSpace c = false := by
  rw [emailDomain, Bool.and_eq_true, List.all_eq_true] at h
  exact fun c hc => not_space_of_okChar (h.1 c hc)

theorem not_space_of_emailLocal {cs : List Char} (h : emailLocal cs = true) :
    ∀ c ∈ cs, jsIsSpace c = false := by
  induction cs with
  | nil => intro c hc; cases hc
  | cons a l ih =>
    intro c hc
    rw [emailLocal] at h
    by_cases ha : (a == '@') = true
    · rw [if_pos ha] at h
      rcases List.mem_cons.mp hc with rfl | hc'
      · rw [beq_iff_eq] at ha
        subst ha
        rfl
      · exact not_space_of_emailDomain h c hc'
    · rw [if_neg ha, Bool.and_eq_true] at h
      rcases List.mem_cons.mp hc with rfl | hc'
      · exact not_space_of_okChar h.1
      · exact ih h.2 c hc'

theorem not_space_of_email {s : String} (h : isValidEmail s = true) :
    ∀ c ∈ s.data, jsIsSpace c = false := by
  rw [isValidEmail] at h
  cases hs : s.data with
  | nil => rw [hs] at h; cases h
  | cons a l =>
    rw [hs, Bool.and_eq_true] at h
    intro c hc
    rcases List.mem_cons.mp hc with rfl | hc'
    · exact not_space_of_okChar h.1
    · exact not_space_of_emailLocal h.2 c hc'

theorem dropWhile_eq_self_of_all {p : Char → Bool} {l : List Char}
    (h : ∀ c ∈ l, p c = false) : l.dropWhile p = l := by
  cases l with
  | nil => rfl
  | cons a as =>
    exact List.dropWhile_cons_of_neg (by simp [h a (List.mem_cons_self a as)])

theorem jsTrim_eq_self {s : String} (h : ∀ c ∈ s.data, jsIsSpace c = false) :
    jsTrim s = s := by
  rw [jsTrim, dropWhile_eq_self_of_all h,
    dropWhile_eq_self_of_all (fun c hc => h c (List.mem_reverse.mp hc)),
    List.reverse_reverse]

theorem jsTrim_email {s : String} (h : isValidEmail s = true) : jsTrim s = s :=
  jsTrim_eq_self (not_space_of_email h)

theorem jsToLower_idem (s : String) : jsToLower (jsToLower s) = jsToLower s := by
  apply String.ext
  show (s.data.map jsToLowerChar).map jsToLowerChar = s.data.map jsToLowerChar
  rw [List.map_map]
  exact List.map_congr_left (fun c _ => jsToLowerChar_idem c)

theorem jsToLower_eq_empty_iff (s : String) : (jsToLower s = "") ↔ (s = "") := by
  constructor
  · intro h
    apply String.ext
    have : s.data.map jsToLowerChar = [] := congrArg String.data h
    exact List.map_eq_nil_iff.mp this
  · intro h
    rw [h]
    rfl

theorem beq_empty_lower (s : String) : (jsToLower s == "") = (s == "") := by
  rw [Bool.eq_iff_iff]
  simp only [beq_iff_eq]
  exact jsToLower_eq_empty_iff s

/-- A validator result of the shape `if errors-present then invalid else
valid-with-data` that reports `valid` must be the valid branch. -/
theorem valid_data_ite {α : Type} (c : Bool) (u v : Validated α)
    (hu : u.valid = false) (h : (if c then u else v).valid = true) :
    (if c then u else v) = v := by
  cases c
  · rfl
  · rw [if_pos rfl] at h
    rw [hu] at h
    cases h

/-- `validateLogin` cannot distinguish an email from its lowercased form. -/
theorem validateLogin_lower (e p : String) :
    validateLogin (some ⟨.val e, .val p⟩) =
      validateLogin (some ⟨.val (jsToLower e), .val p⟩) := by
  simp only [validateLogin, emailErrors, beq_empty_lower, isValidEmail_lower, jsToLower_idem]

/-- `validateRegister` cannot distinguish an email from its lowercased form. -/
theorem validateRegister_lower (e p n : String) :
    validateRegister (some ⟨.val e, .val p, .val n⟩) =
      validateRegister (some ⟨.val (jsToLower e), .val p, .val n⟩) := by
  simp only [validateRegister, emailErrors, beq_empty_lower, isValidEmail_lower, jsToLower_idem]

/-! ## Claim theorems -/

/-- C3: toggle maps status `completed` to `pending` and every other status
(`pending` or `in_progress`) to `completed`; hence toggling a pending owned
task twice returns it to `pending`, and toggling an `in_progress` owned task
once yields `completed`, never back to `in_progress`. -/
theorem toggle_semantics (db : List Task) (t : Task) (now now' : Nat)
    (hu : UniqueIds db) (ht : t ∈ db) :
    (toggleStatus .completed = .pending ∧
      ∀ s, s ≠ TaskStatus.completed → toggleStatus s = .completed)
    ∧ (toggleTaskRoute db t.user_id (some t.id) now).task.map Task.status =
        some (toggleStatus t.status)
    ∧ (t.status = .in_progress →
        (toggleTaskRoute db t.user_id (some t.id) now).task.map Task.status =
          some .completed)
    ∧ (t.status = .pending →
        (toggleTaskRoute (toggleTaskRoute db t.user_id (some t.id) now).db
            t.user_id (some t.id) now').task.map Task.status = some .pending) := by
  refine ⟨⟨rfl, ?_⟩, ?_, ?_, ?_⟩
  · intro s hs
    cases s
    · rfl
    · rfl
    · exact absurd rfl hs
  · rw [toggleTaskRoute_owned hu ht now rfl rfl]
    rfl
  · intro h
    rw [toggleTaskRoute_owned hu ht now rfl rfl]
    simp [h, toggleStatus]
  · intro h
    rw [toggleTaskRoute_owned hu ht now rfl rfl]
    have hid : ∀ x : Task, ((fun x => if ownMatch t.id t.user_id x then
        { x with status := toggleStatus t.status, updated_at := now } else x) x).id
        = x.id := by
      intro x
      dsimp only
      by_cases hx : ownMatch t.id t.user_id x = true
      · rw [if_pos hx]
      · rw [if_neg hx]
    have hu' := uniqueIds_map hu hid
    have ht' : ({ t with status := toggleStatus t.status, updated_at := now } : Task) ∈
        db.map (fun x => if ownMatch t.id t.user_id x then
          { x with status := toggleStatus t.status, updated_at := now } else x) := by
      refine List.mem_map.mpr ⟨t, ht, ?_⟩
      rw [if_pos (ownMatch_eq_true.mpr ⟨rfl, rfl⟩)]
    rw [toggleTaskRoute_owned hu' ht' now' rfl rfl]
    simp [h, toggleStatus]

/-- Witness for C3 at a concrete store: one pending task of user 7. -/
theorem toggle_semantics_witness :
    UniqueIds [sampleTask] ∧ sampleTask ∈ [sampleTask] ∧
    (toggleTaskRoute [sampleTask] sampleTask.user_id (some sampleTask.id) 200).task.map
      Task.status = some (toggleStatus sampleTask.status) :=
  ⟨by simp [UniqueIds], List.mem_singleton.mpr rfl,
    (toggle_semantics [sampleTask] sampleTask 200 300 (by simp [UniqueIds])
      (List.mem_singleton.mpr rfl)).2.1⟩

/-- C10: a PATCH body of exactly `{description: null}` passes validation
(the null description counts as a present field for the at-least-one-field
check) and returns 200, but leaves the stored description — indeed the whole
row apart from `updated_at` — unchanged, because validation maps a null
description to `undefined` before the merge. -/
theorem null_description_update_noop (parseDate : String → Option Nat)
    (db : List Task) (t : Task) (now : Nat) (hu : UniqueIds db) (ht : t ∈ db) :
    (validateUpdateTask parseDate (some nullDescBody)).valid = true
    ∧ updateTaskRoute parseDate db t.user_id (some t.id) (some nullDescBody) now =
        ⟨200, none, some { t with updated_at := now },
          db.map (fun x => if ownMatch t.id t.user_id x then
            { t with updated_at := now } else x)⟩ := by
  have hval : (validateUpdateTask parseDate (some nullDescBody)).valid = true := rfl
  have hdata : (validateUpdateTask parseDate (some nullDescBody)).data =
      some ⟨none, none, none, none, .absent⟩ := rfl
  exact ⟨hval, (updateTaskRoute_owned parseDate hu ht _ hdata hval now rfl rfl).trans rfl⟩

/-- Witness for C10 at a concrete store: the task keeps `description = some
"keep"` after `PATCH {description: null}` returns 200. -/
theorem null_description_update_noop_witness :
    UniqueIds [sampleTask] ∧ sampleTask ∈ [sampleTask] ∧
    (validateUpdateTask noParseDate (some nullDescBody)).valid = true ∧
    updateTaskRoute noParseDate [sampleTask] sampleTask.user_id (some sampleTask.id)
        (some nullDescBody) 200 =
      ⟨200, none, some { sampleTask with updated_at := 200 },
        [{ sampleTask with updated_at := 200 }]⟩ :=
  ⟨by simp [UniqueIds], List.mem_singleton.mpr rfl,
    (null_description_update_noop noParseDate [sampleTask] sampleTask 200
      (by simp [UniqueIds]) (List.mem_singleton.mpr rfl)).1,
    ((null_description_update_noop noParseDate [sampleTask] sampleTask 200
      (by simp [UniqueIds]) (List.mem_singleton.mpr rfl)).2).trans rfl⟩

theorem validateUpdateTask_data_eq (pd : String → Option Nat) (b : UpdateBody)
    (h : (validateUpdateTask pd (some b)).valid = true) :
    (validateUpdateTask pd (some b)).data = some
      { title := match b.title with | .val t => some (jsTrim t) | _ => none
        description := match b.description with | .val s => some (jsTrim s) | _ => none
        status := match b.status with | .val s => statusOfString s | _ => none
        priority := match b.priority with | .val s => priorityOfString s | _ => none
        due_date := b.due_date } := by
  rw [validateUpdateTask] at h ⊢
  exact congrArg Validated.data (valid_data_ite _ _ _ rfl h)

/-- C4 counterexample: the PATCH body `{description: null}` is valid and its
description field is present in the request, yet after the 200 response the
stored description is still `some "keep"` instead of the request's value —
a present field that does not replace the stored value. -/
theorem update_partial_merge_cex :
    nullDescBody.description ≠ JField.absent
    ∧ (validateUpdateTask noParseDate (some nullDescBody)).valid = true
    ∧ (updateTaskRoute noParseDate [sampleTask] 7 (some 1)
        (some nullDescBody) 200).status = 200
    ∧ (updateTaskRoute noParseDate [sampleTask] 7 (some 1)
        (some nullDescBody) 200).task.map Task.description = some (some "keep")
    ∧ (some "keep" : Option String) ≠ none :=
  ⟨by decide, rfl, rfl, rfl, by decide⟩

/-- C4 amended: for every owned task and valid PATCH body, the route returns
200 and writes exactly the field-wise merge — present fields replace stored
values, omitted fields keep their prior value — except that a present
`description: null` leaves the stored description unchanged and a present
description that trims to the empty string is stored as SQL NULL; a body
with zero recognized fields fails validation with 400 and changes nothing. -/
theorem update_partial_merge_amended (pd : String → Option Nat) (db : List Task)
    (t : Task) (b : UpdateBody) (now : Nat)
    (hu : UniqueIds db) (ht : t ∈ db)
    (hvalid : (validateUpdateTask pd (some b)).valid = true) :
    (∃ u : Task,
      updateTaskRoute pd db t.user_id (some t.id) (some b) now =
        ⟨200, none, some u, db.map (fun x => if ownMatch t.id t.user_id x then u else x)⟩
      ∧ u.id = t.id ∧ u.user_id = t.user_id ∧ u.created_at = t.created_at
      ∧ u.updated_at = now
      ∧ (b.title = .absent → u.title = t.title)
      ∧ (∀ s, b.title = .val s → u.title = jsTrim s)
      ∧ (b.description = .absent → u.description = t.description)
      ∧ (b.description = .null → u.description = t.description)
      ∧ (∀ s, b.description = .val s →
          u.description = (if jsTrim s == "" then none else some (jsTrim s)))
      ∧ (b.status = .absent → u.status = t.status)
      ∧ (∀ s st, b.status = .val s → statusOfString s = some st → u.status = st)
      ∧ (b.priority = .absent → u.priority = t.priority)
      ∧ (∀ s pr, b.priority = .val s → priorityOfString s = some pr → u.priority = pr)
      ∧ (b.due_date = .absent → u.due_date = t.due_date)
      ∧ (b.due_date = .null → u.due_date = none)
      ∧ (∀ s, b.due_date = .val s → s ≠ "" → u.due_date = pd s))
    ∧ (validateUpdateTask pd (some emptyUpdateBody)).valid = false
    ∧ updateTaskRoute pd db t.user_id (some t.id) (some emptyUpdateBody) now =
        ⟨400, some "At least one field must be provided", none, db⟩ := by
  have hdto := validateUpdateTask_data_eq pd b hvalid
  refine ⟨⟨mergeRow pd _ t now,
    updateTaskRoute_owned pd hu ht _ hdto hvalid now rfl rfl,
    rfl, rfl, rfl, rfl, ?_, ?_, ?_, ?_, ?_, ?_, ?_, ?_, ?_, ?_, ?_, ?_⟩, rfl, rfl⟩
  · intro hb
    simp [mergeRow, hb]
  · intro s hb
    simp [mergeRow, hb]
  · intro hb
    simp [mergeRow, hb]
  · intro hb
    simp [mergeRow, hb]
  · intro s hb
    simp [mergeRow, hb]
  · intro hb
    simp [mergeRow, hb]
  · intro s st hb hst
    simp [mergeRow, hb, hst]
  · intro hb
    simp [mergeRow, hb]
  · intro s pr hb hpr
    simp [mergeRow, hb, hpr]
  · intro hb
    simp [mergeRow, hb]
  · intro hb
    simp [mergeRow, hb]
  · intro s hb hs
    simp [mergeRow, hb, hs]

/-- Witness for C4's amended theorem: updating only the title of a concrete
task succeeds with 200. -/
theorem update_partial_merge_amended_witness :
    UniqueIds [sampleTask] ∧ sampleTask ∈ [sampleTask] ∧
    (validateUpdateTask noParseDate (some titleBody)).valid = true ∧
    (updateTaskRoute noParseDate [sampleTask] sampleTask.user_id (some sampleTask.id)
        (some titleBody) 200).status = 200 := by
  refine ⟨by simp [UniqueIds], List.mem_singleton.mpr rfl, rfl, ?_⟩
  obtain ⟨⟨u, hroute, _⟩, _⟩ := update_partial_merge_amended noParseDate [sampleTask]
    sampleTask titleBody 200 (by simp [UniqueIds]) (List.mem_singleton.mpr rfl) rfl
  rw [hroute]

/-- C2: user isolation — every single-task operation invoked by an
authenticated user A on a task owned by B ≠ A fails with 404 "Task not
found", leaves the store unchanged, and is indistinguishable from the same
operation on an id that exists nowhere in the store. -/
theorem task_user_isolation (db : List Task) (t : Task) (A : Nat)
    (parseDate : String → Option Nat) (body : Option UpdateBody) (now : Nat)
    (hu : UniqueIds db) (ht : t ∈ db) (hA : A ≠ t.user_id)
    (hbody : (validateUpdateTask parseDate body).valid = true) :
    getTaskRoute db A (some t.id) = ⟨404, some "Task not found", none, db⟩
    ∧ updateTaskRoute parseDate db A (some t.id) body now =
        ⟨404, some "Task not found", none, db⟩
    ∧ deleteTaskRoute db A (some t.id) = ⟨404, some "Task not found", none, db⟩
    ∧ toggleTaskRoute db A (some t.id) now = ⟨404, some "Task not found", none, db⟩
    ∧ ∀ tid0, (∀ x ∈ db, x.id ≠ tid0) →
        getTaskRoute db A (some tid0) = getTaskRoute db A (some t.id)
        ∧ updateTaskRoute parseDate db A (some tid0) body now =
            updateTaskRoute parseDate db A (some t.id) body now
        ∧ deleteTaskRoute db A (some tid0) = deleteTaskRoute db A (some t.id)
        ∧ toggleTaskRoute db A (some tid0) now = toggleTaskRoute db A (some t.id) now := by
  obtain ⟨dto, hdto⟩ := validateUpdateTask_data_of_valid parseDate body hbody
  have hnil := filter_ownMatch_nil_cross hu ht hA
  have hget : getTaskRoute db A (some t.id) = ⟨404, some "Task not found", none, db⟩ := by
    simp only [getTaskRoute, hnil]
  have hupd : updateTaskRoute parseDate db A (some t.id) body now =
      ⟨404, some "Task not found", none, db⟩ := by
    simp only [updateTaskRoute, hdto, hbody, hnil]
  have hdel : deleteTaskRoute db A (some t.id) = ⟨404, some "Task not found", none, db⟩ := by
    simp only [deleteTaskRoute, hnil, filter_not_ownMatch_self hnil, List.isEmpty_nil,
      if_true]
  have htog : toggleTaskRoute db A (some t.id) now = ⟨404, some "Task not found", none, db⟩ := by
    simp only [toggleTaskRoute, hnil]
  refine ⟨hget, hupd, hdel, htog, ?_⟩
  intro tid0 h0
  have hnil0 := filter_ownMatch_nil_fresh h0 A
  refine ⟨?_, ?_, ?_, ?_⟩
  · rw [hget]
    simp only [getTaskRoute, hnil0]
  · rw [hupd]
    simp only [updateTaskRoute, hdto, hbody, hnil0]
  · rw [hdel]
    simp only [deleteTaskRoute, hnil0, filter_not_ownMatch_self hnil0, List.isEmpty_nil,
      if_true]
  · rw [htog]
    simp only [toggleTaskRoute, hnil0]

/-- Witness for C2: user 8 probing user 7's task id 1, with a valid
single-field PATCH body. -/
theorem task_user_isolation_witness :
    UniqueIds [sampleTask] ∧ sampleTask ∈ [sampleTask] ∧ (8 ≠ sampleTask.user_id) ∧
    (validateUpdateTask noParseDate (some nullDescBody)).valid = true ∧
    getTaskRoute [sampleTask] 8 (some sampleTask.id) =
      ⟨404, some "Task not found", none, [sampleTask]⟩ :=
  ⟨by simp [UniqueIds], List.mem_singleton.mpr rfl, by decide, rfl,
    (task_user_isolation [sampleTask] sampleTask 8 noParseDate (some nullDescBody) 200
      (by simp [UniqueIds]) (List.mem_singleton.mpr rfl) (by decide) rfl).1⟩

theorem listMatches_none_none (uid : Nat) :
    (fun t : Task => t.user_id == uid) = listMatches uid none none := by
  funext t
  simp [listMatches, Bool.and_true]

theorem listMatches_some_none (uid : Nat) (s : String) :
    (fun t : Task => t.user_id == uid && statusToString t.status == s) =
      listMatches uid (some s) none := by
  funext t
  simp [listMatches, Bool.and_true]

theorem listMatches_none_some (uid : Nat) (q : String) :
    (fun t : Task => t.user_id == uid && titleILike t.title q) =
      listMatches uid none (some q) := by
  funext t
  simp [listMatches, Bool.and_true]

/-- C5: list computes `total` under the same user/status/search predicate as
the returned page, `totalPages` is the ceiling of `total / limit`, and over
the §8 scenario of 25 matching tasks with limit 10: totalPages is 3, page 3
returns 5 items, and page 4 returns an empty item list while still
reporting total 25. -/
theorem list_pagination_arithmetic :
    (∀ db uid statusF searchF,
      countTasks db uid statusF searchF =
        (db.filter (listMatches uid statusF searchF)).length)
    ∧ (∀ db uid statusF searchF offset limit,
      selectTasks db uid statusF searchF offset limit =
        ((orderByCreatedDesc (db.filter (listMatches uid statusF searchF))).drop
          offset).take limit)
    ∧ (∀ db uid pageP limitP statusP searchP,
        (getTasksRoute db uid pageP limitP statusP searchP).status = 200 →
        (getTasksRoute db uid pageP limitP statusP searchP).totalPages =
          (getTasksRoute db uid pageP limitP statusP searchP).total ⌈/⌉
            (getTasksRoute db uid pageP limitP statusP searchP).limit.toNat)
    ∧ (getTasksRoute scenDb 7 (some "1") (some "10") none none).totalPages = 3
    ∧ (getTasksRoute scenDb 7 (some "3") (some "10") none none).data.length = 5
    ∧ (getTasksRoute scenDb 7 (some "4") (some "10") none none).data = []
    ∧ (getTasksRoute scenDb 7 (some "4") (some "10") none none).total = 25 := by
  refine ⟨?_, ?_, ?_, rfl, rfl, rfl, rfl⟩
  · intro db uid sF qF
    cases sF <;> cases qF
    · rw [countTasks, listMatches_none_none]
    · rw [countTasks, listMatches_none_some]
    · rw [countTasks, listMatches_some_none]
    · rfl
  · intro db uid sF qF o l
    cases sF <;> cases qF
    · rw [selectTasks, listMatches_none_none]
    · rw [selectTasks, listMatches_none_some]
    · rw [selectTasks, listMatches_some_none]
    · rfl
  · intro db uid pP lP sP qP h
    rcases hp : effectivePage pP with _ | page
    · rw [getTasksRoute.eq_def, hp] at h
      cases h
    · rcases hl : effectiveLimit lP with _ | limit
      · rw [getTasksRoute.eq_def, hp, hl] at h
        cases h
      · simp only [getTasksRoute.eq_def, hp, hl]
        rw [Nat.ceilDiv_eq_add_pred_div]

/-- Witness for C5's conditional conjunct at the concrete scenario. -/
theorem list_pagination_arithmetic_witness :
    (getTasksRoute scenDb 7 (some "1") (some "10") none none).status = 200
    ∧ (getTasksRoute scenDb 7 (some "1") (some "10") none none).totalPages =
        (getTasksRoute scenDb 7 (some "1") (some "10") none none).total ⌈/⌉
          (getTasksRoute scenDb 7 (some "1") (some "10") none none).limit.toNat :=
  ⟨rfl, list_pagination_arithmetic.2.2.1 scenDb 7 (some "1") (some "10") none none rfl⟩

/-- C6 counterexample: a page (or limit) query string whose first
significant character is not a digit makes `parseInt` return NaN, which
`Math.max`/`Math.min` propagate — there is no clamped in-range value at all,
and the request falls through to the 500 fallback response. -/
theorem list_param_nan_cex :
    (effectivePage (some "abc")).isSome = false
    ∧ (effectiveLimit (some "abc")).isSome = false
    ∧ (getTasksRoute [] 7 (some "abc") none none none).status = 500 :=
  ⟨rfl, rfl, rfl⟩

/-- C6 amended: page defaults to 1 when the parameter is absent or empty and
limit to 10; whenever the parameter parses as an integer the page is floored
at 1 and the limit clamped into [1,100]; a parameter that does not parse
yields NaN — no numeric value — instead of a clamped one. -/
theorem list_param_normalization_amended :
    effectivePage none = some 1
    ∧ effectiveLimit none = some 10
    ∧ effectivePage (some "") = some 1
    ∧ effectiveLimit (some "") = some 10
    ∧ (∀ s n, s ≠ "" → jsParseInt s = some n →
        effectivePage (some s) = some (max 1 n)
        ∧ effectiveLimit (some s) = some (min 100 (max 1 n)))
    ∧ (∀ s p, effectivePage (some s) = some p → 1 ≤ p)
    ∧ (∀ s l, effectiveLimit (some s) = some l → 1 ≤ l ∧ l ≤ 100)
    ∧ (∀ s, s ≠ "" → jsParseInt s = none →
        effectivePage (some s) = none ∧ effectiveLimit (some s) = none) := by
  refine ⟨rfl, rfl, rfl, rfl, ?_, ?_, ?_, ?_⟩
  · intro s n hs hn
    have ho1 : orDefault (some s) "1" = s := by simp [orDefault, hs]
    have ho10 : orDefault (some s) "10" = s := by simp [orDefault, hs]
    constructor
    · rw [effectivePage, ho1, hn]
      rfl
    · rw [effectiveLimit, ho10, hn]
      rfl
  · intro s p h
    rw [effectivePage, jsMaxInt] at h
    rcases hj : jsParseInt (orDefault (some s) "1") with _ | n
    · rw [hj] at h
      cases h
    · rw [hj] at h
      have : max 1 n = p := by simpa using h
      omega
  · intro s l h
    rw [effectiveLimit, jsMinInt, jsMaxInt] at h
    rcases hj : jsParseInt (orDefault (some s) "10") with _ | n
    · rw [hj] at h
      cases h
    · rw [hj] at h
      have : min 100 (max 1 n) = l := by simpa using h
      constructor
      · omega
      · omega
  · intro s hs hn
    have ho1 : orDefault (some s) "1" = s := by simp [orDefault, hs]
    have ho10 : orDefault (some s) "10" = s := by simp [orDefault, hs]
    constructor
    · rw [effectivePage, ho1, hn]
      rfl
    · rw [effectiveLimit, ho10, hn]
      rfl

/-- Witness for C6's amended theorem: a parseable page value is floored. -/
theorem list_param_normalization_amended_witness :
    ("0" : String) ≠ "" ∧ jsParseInt "0" = some 0
    ∧ effectivePage (some "0") = some (max 1 0) :=
  ⟨by decide, rfl,
    (list_param_normalization_amended.2.2.2.2.1 "0" 0 (by decide) rfl).1⟩

/-- C7: for a well-formed login request, the response when no user has the
email and the response when the password fails verification are the
identical value — 401, the same generic message, no user data, no tokens,
store untouched — so the response cannot reveal whether the email exists. -/
theorem login_failure_indistinguishable
    (verify : String → String → Bool) (users : List User)
    (rts : List RefreshTokenRec) (now : Nat) (fresh : AuthTokens) (freshId : Nat)
    (body : Option LoginBody) (d : LoginDTO)
    (hvalid : (validateLogin body).valid = true)
    (hdata : (validateLogin body).data = some d) :
    (users.filter (fun u => u.email == d.email) = [] →
      loginPOST verify users rts now fresh freshId body =
        ⟨401, some "Invalid email or password", none, rts⟩)
    ∧ (∀ u rest, users.filter (fun u => u.email == d.email) = u :: rest →
        verify d.password u.password_hash = false →
        loginPOST verify users rts now fresh freshId body =
          ⟨401, some "Invalid email or password", none, rts⟩) := by
  constructor
  · intro hf
    simp only [loginPOST, hdata, hvalid, hf]
  · intro u rest hf hv
    simp only [loginPOST, hdata, hvalid, hf, hv, Bool.false_eq_true, if_false]

/-- Witness for C7: unknown email and wrong password produce the same
concrete 401 response against a one-user store. -/
theorem login_failure_indistinguishable_witness :
    (validateLogin unknownEmailBody).valid = true
    ∧ (validateLogin wrongPwBody).valid = true
    ∧ loginPOST (fun _ _ => false) [sampleUser] [] 0 ⟨"a", "r"⟩ 1 unknownEmailBody =
        ⟨401, some "Invalid email or password", none, []⟩
    ∧ loginPOST (fun _ _ => false) [sampleUser] [] 0 ⟨"a", "r"⟩ 1 wrongPwBody =
        ⟨401, some "Invalid email or password", none, []⟩ :=
  ⟨rfl, rfl,
    (login_failure_indistinguishable (fun _ _ => false) [sampleUser] [] 0 ⟨"a", "r"⟩ 1
      unknownEmailBody ⟨"bob@example.com", "pw"⟩ rfl rfl).1 rfl,
    (login_failure_indistinguishable (fun _ _ => false) [sampleUser] [] 0 ⟨"a", "r"⟩ 1
      wrongPwBody ⟨"alice@example.com", "bad"⟩ rfl rfl).2 sampleUser [] rfl rfl⟩

/-- If `a` is the unique element of `l` satisfying `p`, the filter starts
with `a` (and, `p`-satisfying elements being all equal to `a`, the match on
`rows[0]` picks `a`). -/
theorem filter_eq_cons_of_uniq {α : Type} {l : List α} {p : α → Bool} {a : α}
    (ha : a ∈ l) (hpa : p a = true) (huniq : ∀ x ∈ l, p x = true → x = a) :
    ∃ tl, l.filter p = a :: tl := by
  induction l with
  | nil => cases ha
  | cons b bs ih =>
    by_cases hb : p b = true
    · have hba : b = a := huniq b (List.mem_cons_self b bs) hb
      subst hba
      exact ⟨bs.filter p, by rw [List.filter_cons_of_pos hb]⟩
    · rcases List.mem_cons.mp ha with rfl | ha'
      · exact absurd hpa hb
      · obtain ⟨tl, htl⟩ :=
          ih ha' (fun x hx hpx => huniq x (List.mem_cons_of_mem b hx) hpx)
        exact ⟨tl, by rw [List.filter_cons_of_neg (by simpa using hb), htl]⟩

/-- C1: a refresh token that is in the store and unexpired — and, as every
server-minted stored token, JWT-valid and bound to an existing user —
succeeds exactly once: the first POST /auth/refresh returns 200 with the
fresh token pair, deletes the presented token's record and inserts the new
one; presenting the same consumed token against the resulting store fails
with 401, issues no tokens, and leaves the store unchanged. -/
theorem refresh_token_single_use
    (verifyJWT : String → Option JWTPayload) (users : List User)
    (rts : List RefreshTokenRec) (r : RefreshTokenRec) (u : User)
    (payload : JWTPayload) (now now' : Nat) (fresh fresh' : AuthTokens)
    (freshId freshId' : Nat)
    (hjwt : verifyJWT r.token = some payload)
    (hmem : r ∈ rts) (hexp : now < r.expires_at)
    (huniq : ∀ x ∈ rts, x.token = r.token → x = r)
    (humem : u ∈ users) (huid : u.id = r.user_id)
    (huuniq : ∀ x ∈ users, x.id = r.user_id → x = u)
    (hfresh : fresh.refreshToken ≠ r.token) :
    refreshPOST verifyJWT users rts now fresh freshId (some r.token) =
      ⟨200, none, some fresh,
        rts.filter (fun x => !(x.id == r.id)) ++
          [⟨freshId, u.id, fresh.refreshToken, refreshExpiry now⟩]⟩
    ∧ (∀ x ∈ rts.filter (fun x => !(x.id == r.id)) ++
          [(⟨freshId, u.id, fresh.refreshToken, refreshExpiry now⟩ : RefreshTokenRec)],
        x.token ≠ r.token)
    ∧ refreshPOST verifyJWT users
        (rts.filter (fun x => !(x.id == r.id)) ++
          [⟨freshId, u.id, fresh.refreshToken, refreshExpiry now⟩])
        now' fresh' freshId' (some r.token) =
      ⟨401, some "Refresh token expired or revoked", none,
        rts.filter (fun x => !(x.id == r.id)) ++
          [⟨freshId, u.id, fresh.refreshToken, refreshExpiry now⟩]⟩ := by
  have hnotok : ∀ x ∈ rts.filter (fun x => !(x.id == r.id)) ++
      [(⟨freshId, u.id, fresh.refreshToken, refreshExpiry now⟩ : RefreshTokenRec)],
      x.token ≠ r.token := by
    intro x hx
    rcases List.mem_append.mp hx with hx' | hx'
    · obtain ⟨hxmem, hxid⟩ := List.mem_filter.mp hx'
      intro htok
      have : x = r := huniq x hxmem htok
      subst this
      simp at hxid
    · rw [List.mem_singleton.mp hx']
      exact hfresh
  refine ⟨?_, hnotok, ?_⟩
  · obtain ⟨tl, htl⟩ := filter_eq_cons_of_uniq (p := fun x =>
        x.token == r.token && decide (now < x.expires_at)) hmem
      (by simp [hexp])
      (fun x hx hpx => by
        rw [Bool.and_eq_true] at hpx
        exact huniq x hx (by simpa using hpx.1))
    obtain ⟨ul, hul⟩ := filter_eq_cons_of_uniq (p := fun x => x.id == r.user_id) humem
      (by simp [huid]) (fun x hx hpx => huuniq x hx (by simpa using hpx))
    rw [refreshPOST, hjwt, htl]
    dsimp only
    rw [hul]
  · rw [refreshPOST, hjwt]
    have hnil : (rts.filter (fun x => !(x.id == r.id)) ++
        [(⟨freshId, u.id, fresh.refreshToken, refreshExpiry now⟩ : RefreshTokenRec)]).filter
        (fun x => x.token == r.token && decide (now' < x.expires_at)) = [] := by
      rw [List.filter_eq_nil_iff]
      intro x hx hpx
      rw [Bool.and_eq_true] at hpx
      exact hnotok x hx (by simpa using hpx.1)
    rw [hnil]

/-- Witness for C1: a concrete store with one token record; the first
refresh returns 200, the replay returns 401. -/
theorem refresh_token_single_use_witness :
    vJWT rtRec.token = some ⟨7, "alice@example.com"⟩
    ∧ rtRec ∈ [rtRec] ∧ 500 < rtRec.expires_at
    ∧ (refreshPOST vJWT [sampleUser] [rtRec] 500 ⟨"a2", "r2"⟩ 9
        (some rtRec.token)).status = 200
    ∧ (refreshPOST vJWT [sampleUser]
        (refreshPOST vJWT [sampleUser] [rtRec] 500 ⟨"a2", "r2"⟩ 9
          (some rtRec.token)).refresh_tokens
        600 ⟨"a3", "r3"⟩ 10 (some rtRec.token)).status = 401 := by
  have h := refresh_token_single_use vJWT [sampleUser] [rtRec] rtRec sampleUser
    ⟨7, "alice@example.com"⟩ 500 600 ⟨"a2", "r2"⟩ ⟨"a3", "r3"⟩ 9 10 rfl
    (List.mem_singleton.mpr rfl) (by decide)
    (fun x hx _ => List.mem_singleton.mp hx)
    (List.mem_singleton.mpr rfl) rfl
    (fun x hx _ => List.mem_singleton.mp hx) (by decide)
  refine ⟨rfl, List.mem_singleton.mpr rfl, by decide, ?_, ?_⟩
  · rw [h.1]
  · rw [h.1]
    rw [h.2.2]

/-- C9 counterexample: an email that differs from a registered one only by a
leading space is rejected with 400 by the format check before any
normalization runs, while its lowercased-and-trimmed form logs in with 200 —
so processing an email is NOT equivalent to processing its
lowercased-and-trimmed form. -/
theorem email_normalization_cex :
    jsTrim (jsToLower " alice@example.com") = "alice@example.com"
    ∧ (validateLogin wsLoginBody).valid = false
    ∧ (validateLogin wsLoginBody).errors = [⟨"email", "Invalid email format"⟩]
    ∧ (loginPOST (fun _ _ => true) [sampleUser] [] 0 ⟨"a", "r"⟩ 1 wsLoginBody).status = 400
    ∧ (loginPOST (fun _ _ => true) [sampleUser] [] 0 ⟨"a", "r"⟩ 1 okLoginBody).status = 200 :=
  ⟨rfl, rfl, rfl, rfl, rfl⟩

theorem validateLogin_data_eq (e p : String)
    (h : (validateLogin (some ⟨.val e, .val p⟩)).valid = true) :
    (validateLogin (some ⟨.val e, .val p⟩)).data = some ⟨jsTrim (jsToLower e), p⟩ := by
  rw [validateLogin] at h ⊢
  exact congrArg Validated.data (valid_data_ite _ _ _ rfl h)

theorem validateRegister_data_eq (e p n : String)
    (h : (validateRegister (some ⟨.val e, .val p, .val n⟩)).valid = true) :
    (validateRegister (some ⟨.val e, .val p, .val n⟩)).data =
      some ⟨jsTrim (jsToLower e), p, jsTrim n⟩ := by
  rw [validateRegister] at h ⊢
  exact congrArg Validated.data (valid_data_ite _ _ _ rfl h)

theorem isValidEmail_of_validateLogin {e p : String}
    (h : (validateLogin (some ⟨.val e, .val p⟩)).valid = true) :
    isValidEmail e = true := by
  by_contra hne
  rw [Bool.not_eq_true] at hne
  rw [validateLogin] at h
  by_cases he : (e == "") = true <;>
    simp [emailErrors, he, hne] at h

/-- C9 amended: registration and login lowercase the email, and behavior
with an email is identical to behavior with its lowercased form all the way
to the store operations; the trim in the normalization is a no-op because
the format check (run on the raw email) rejects any email containing
whitespace — such a request gets 400 instead of being trimmed; a
re-registration whose email differs from a stored one only in letter case is
rejected as a duplicate with 409 and changes nothing. -/
theorem email_normalization_amended :
    (∀ e p, validateLogin (some ⟨.val e, .val p⟩) =
      validateLogin (some ⟨.val (jsToLower e), .val p⟩))
    ∧ (∀ e p n, validateRegister (some ⟨.val e, .val p, .val n⟩) =
      validateRegister (some ⟨.val (jsToLower e), .val p, .val n⟩))
    ∧ (∀ verify users rts now fresh freshId e p,
        loginPOST verify users rts now fresh freshId (some ⟨.val e, .val p⟩) =
          loginPOST verify users rts now fresh freshId
            (some ⟨.val (jsToLower e), .val p⟩))
    ∧ (∀ hashPw users rts now fresh freshUserId freshId e p n,
        registerPOST hashPw users rts now fresh freshUserId freshId
            (some ⟨.val e, .val p, .val n⟩) =
          registerPOST hashPw users rts now fresh freshUserId freshId
            (some ⟨.val (jsToLower e), .val p, .val n⟩))
    ∧ (∀ s, isValidEmail s = true → jsTrim s = s)
    ∧ (∀ e p, (validateLogin (some ⟨.val e, .val p⟩)).valid = true →
        (validateLogin (some ⟨.val e, .val p⟩)).data = some ⟨jsToLower e, p⟩)
    ∧ (∀ hashPw users rts now fresh freshUserId freshId e p n u,
        u ∈ users → u.email = jsTrim (jsToLower e) →
        (validateRegister (some ⟨.val e, .val p, .val n⟩)).valid = true →
        (registerPOST hashPw users rts now fresh freshUserId freshId
            (some ⟨.val e, .val p, .val n⟩)).status = 409
        ∧ (registerPOST hashPw users rts now fresh freshUserId freshId
            (some ⟨.val e, .val p, .val n⟩)).users = users
        ∧ (registerPOST hashPw users rts now fresh freshUserId freshId
            (some ⟨.val e, .val p, .val n⟩)).refresh_tokens = rts) := by
  refine ⟨validateLogin_lower, validateRegister_lower, ?_, ?_, ?_, ?_, ?_⟩
  · intro verify users rts now fresh freshId e p
    simp only [loginPOST, validateLogin_lower e p]
  · intro hashPw users rts now fresh freshUserId freshId e p n
    simp only [registerPOST, validateRegister_lower e p n]
  · exact fun s hs => jsTrim_email hs
  · intro e p h
    rw [validateLogin_data_eq e p h]
    have hv : isValidEmail (jsToLower e) = true := by
      rw [isValidEmail_lower]
      exact isValidEmail_of_validateLogin h
    rw [jsTrim_email hv]
  · intro hashPw users rts now fresh freshUserId freshId e p n u humem hueq hvalid
    have hdata := validateRegister_data_eq e p n hvalid
    have humemf : u ∈ users.filter (fun x => x.email == jsTrim (jsToLower e)) :=
      List.mem_filter.mpr ⟨humem, by simp [hueq]⟩
    have hne : users.filter (fun x => x.email == jsTrim (jsToLower e)) ≠ [] :=
      fun hnil => by rw [hnil] at humemf; cases humemf
    obtain ⟨y, ys, hys⟩ := List.exists_cons_of_ne_nil hne
    simp only [registerPOST, hdata, hvalid, hys]
    exact ⟨trivial, trivial, trivial⟩

/-- Witness for C9's amended theorem: re-registering `sampleUser`'s email in
a different letter case is rejected with 409. -/
theorem email_normalization_amended_witness :
    sampleUser ∈ [sampleUser]
    ∧ sampleUser.email = jsTrim (jsToLower "Alice@Example.com")
    ∧ (validateRegister (some ⟨.val "Alice@Example.com", .val "password1",
        .val "Alice"⟩)).valid = true
    ∧ (registerPOST (fun s => s) [sampleUser] [] 0 ⟨"a", "r"⟩ 8 9
        (some ⟨.val "Alice@Example.com", .val "password1", .val "Alice"⟩)).status = 409 :=
  ⟨List.mem_singleton.mpr rfl, rfl, rfl,
    (email_normalization_amended.2.2.2.2.2.2 (fun s => s) [sampleUser] [] 0 ⟨"a", "r"⟩
      8 9 "Alice@Example.com" "password1" "Alice" sampleUser
      (List.mem_singleton.mpr rfl) rfl rfl).1⟩

end TaskManager
